import Mathlib

/-!
Shallow embedding of the Access Control & Audit Engine of the
Role-Based-User-Management backend (`src/backend/app`), together with proofs
about it.

Conventions of the embedding:
* SQLAlchemy tables become lists of row structures inside a `DBState`;
  query filters become `List.filter`, `ORDER BY ... DESC` becomes `mergeSort`
  with the corresponding comparison, `LIMIT`/`OFFSET` become `take`/`drop`.
* The `role` column is a string (the code compares it against string
  literals such as `"admin"`), `PageName` is the closed enum from
  `app/models/user_page_access.py`.
* Python dicts keyed by `PageName` become association lists with
  insert-or-overwrite-in-place semantics (`dictInsert` / `dictGet?`).
* HTTP exceptions become `Except ApiErr`; `ApiErr` keeps the status code and
  the detail string.
* Timestamps are drawn from a logical clock in `DBState` that the audit
  write path increments, mirroring the server-assigned `func.now()` default.
-/

/-- The closed page enum from `app/models/user_page_access.py` (`PageName`). -/
inductive PageName where
  | dashboard
  | interviews
  | candidates
  | calls
  | settings
  | user_management
deriving DecidableEq

/-- `PageName.value`: the string value of each enum member. -/
def pageValue : PageName → String
  | .dashboard => "dashboard"
  | .interviews => "interviews"
  | .candidates => "candidates"
  | .calls => "calls"
  | .settings => "settings"
  | .user_management => "user_management"

/-- A row of the `users` table (`app/models/user.py`).  The `role` column is
stored as a string; the code compares it against string literals. -/
structure UserRow where
  id : Nat
  email : String
  full_name : String
  password_hash : String
  role : String
  active : Bool
deriving DecidableEq

/-- A row of the `user_page_access` table (`app/models/user_page_access.py`). -/
structure UserPageAccessRow where
  id : Nat
  user_id : Nat
  page_name : PageName
  has_access : Bool
deriving DecidableEq

/-- Opaque JSON-like metadata payload of an audit entry. -/
inductive Json where
  | null
  | str (s : String)
  | boolean (b : Bool)
  | num (n : Int)
  | obj (fields : List (String × Json))

/-- A row of the `audit_logs` table (`app/models/audit_log.py`). -/
structure AuditLogRow where
  id : Nat
  actor_id : Nat
  action : String
  target : Option String
  target_user_id : Option Nat
  meta_data : Json
  timestamp : Nat

/-- The relational store: the three tables of the core, with autoincrement
counters and the server clock used for audit timestamps. -/
structure DBState where
  users : List UserRow
  page_access : List UserPageAccessRow
  audit_logs : List AuditLogRow
  next_user_id : Nat
  next_access_id : Nat
  next_log_id : Nat
  clock : Nat

/-- An HTTP error response (`fastapi.HTTPException`). -/
structure ApiErr where
  status_code : Nat
  detail : String
deriving DecidableEq

/- ------------------------------------------------------------------
Python-dict-as-association-list operations (insertion order preserved,
assignment to an existing key overwrites in place).
------------------------------------------------------------------ -/

/-- `d[k] = v` on a Python dict: overwrite in place if the key is present,
append otherwise.  (A Python dict never holds a duplicate key, so replacing
the first occurrence models assignment exactly.) -/
def dictInsert : List (PageName × Bool) → PageName → Bool → List (PageName × Bool)
  | [], k, v => [(k, v)]
  | e :: d, k, v => if e.1 == k then (k, v) :: d else e :: dictInsert d k v

/-- `d.get(k)` on a Python dict. -/
def dictGet? (d : List (PageName × Bool)) (k : PageName) : Option Bool :=
  (d.find? (fun e => e.1 == k)).map (fun e => e.2)

/- ------------------------------------------------------------------
Permission resolver (`CRUDUser.get_user_permissions`, app/crud/user.py).
------------------------------------------------------------------ -/

/-- Role defaults for `admin` (app/crud/user.py, `role_permissions`). -/
def adminDefaults : List (PageName × Bool) :=
  [(.dashboard, true), (.interviews, true), (.candidates, true),
   (.calls, true), (.settings, true), (.user_management, true)]

/-- Role defaults for `manager`. -/
def managerDefaults : List (PageName × Bool) :=
  [(.dashboard, true), (.interviews, true), (.candidates, true),
   (.calls, true), (.settings, true), (.user_management, false)]

/-- Role defaults for `agent`. -/
def agentDefaults : List (PageName × Bool) :=
  [(.dashboard, true), (.interviews, true), (.candidates, false),
   (.calls, true), (.settings, true), (.user_management, false)]

/-- Role defaults for `viewer`. -/
def viewerDefaults : List (PageName × Bool) :=
  [(.dashboard, true), (.interviews, false), (.candidates, false),
   (.calls, false), (.settings, true), (.user_management, false)]

/-- `role_permissions.get(user.role, {})` from `get_user_permissions`:
the static role policy table, looked up by the role string, with the empty
dict as fallback for a role that is not in the table. -/
def rolePermissionsGet (role : String) : List (PageName × Bool) :=
  if role == "admin" then adminDefaults
  else if role == "manager" then managerDefaults
  else if role == "agent" then agentDefaults
  else if role == "viewer" then viewerDefaults
  else []

/-- The loop body of `get_user_permissions`:
`permissions[override.page_name] = override.has_access`. -/
def applyOverride (perms : List (PageName × Bool)) (o : UserPageAccessRow) :
    List (PageName × Bool) :=
  dictInsert perms o.page_name o.has_access

/-- `CRUDUser.get_user_permissions` (app/crud/user.py lines 57-103): start
from the role defaults, then overwrite one entry per override row belonging
to the user, in row order.  (The source finally converts the enum keys to
their string values for JSON serialization; `pageValue` is injective, so the
mapping is kept keyed by `PageName` here.) -/
def get_user_permissions (page_access : List UserPageAccessRow) (u : UserRow) :
    List (PageName × Bool) :=
  (page_access.filter (fun o => o.user_id == u.id)).foldl applyOverride
    (rolePermissionsGet u.role)

/- ------------------------------------------------------------------
Authorization gates (app/api/deps.py).
------------------------------------------------------------------ -/

/-- The 403 raised by `get_current_admin_user`. -/
def adminGateErr : ApiErr := ⟨403, "Not enough permissions"⟩

/-- `get_current_admin_user` (app/api/deps.py lines 56-65): pass the user
through iff their role equals `"admin"`, else 403. -/
def get_current_admin_user (current_user : UserRow) : Except ApiErr UserRow :=
  if current_user.role != "admin" then .error adminGateErr
  else .ok current_user

/-- `check_page_access` (app/api/deps.py lines 80-94): resolve the user's
permissions and 403 unless `permissions.get(page, False)` is true. -/
def check_page_access (page_access : List UserPageAccessRow) (page_name : PageName)
    (current_user : UserRow) : Except ApiErr UserRow :=
  let permissions := get_user_permissions page_access current_user
  if !((dictGet? permissions page_name).getD false) then
    .error ⟨403, "Access denied to " ++ pageValue page_name ++ " page"⟩
  else .ok current_user

/- ------------------------------------------------------------------
Lemmas about the dict operations and the override fold.
------------------------------------------------------------------ -/

theorem dictGet?_dictInsert_self (d : List (PageName × Bool)) (k : PageName) (v : Bool) :
    dictGet? (dictInsert d k v) k = some v := by
  induction d with
  | nil => simp [dictInsert, dictGet?]
  | cons e d ih =>
      by_cases h : e.1 = k
      · simp [dictInsert, dictGet?, h]
      · simp only [dictInsert, dictGet?] at *
        simp [h, ih]

theorem dictGet?_dictInsert_ne (d : List (PageName × Bool)) (k k2 : PageName) (v : Bool)
    (h : k ≠ k2) : dictGet? (dictInsert d k v) k2 = dictGet? d k2 := by
  induction d with
  | nil => simp [dictInsert, dictGet?, h]
  | cons e d ih =>
      by_cases he : e.1 = k
      · have hstep : dictInsert (e :: d) k v = (k, v) :: d := by simp [dictInsert, he]
        rw [hstep]
        unfold dictGet?
        rw [List.find?_cons_of_neg _ (by simp [h]),
          List.find?_cons_of_neg _ (by simp [he, h])]
      · have hstep : dictInsert (e :: d) k v = e :: dictInsert d k v := by
          simp [dictInsert, he]
        rw [hstep]
        by_cases he2 : e.1 = k2
        · unfold dictGet?
          rw [List.find?_cons_of_pos _ (by simp [he2]),
            List.find?_cons_of_pos _ (by simp [he2])]
        · unfold dictGet?
          rw [List.find?_cons_of_neg _ (by simp [he2]),
            List.find?_cons_of_neg _ (by simp [he2])]
          exact ih

theorem isSome_dictGet?_dictInsert (d : List (PageName × Bool)) (k k2 : PageName) (v : Bool)
    (h : (dictGet? d k2).isSome) : (dictGet? (dictInsert d k v) k2).isSome := by
  by_cases hk : k = k2
  · subst hk; simp [dictGet?_dictInsert_self]
  · rw [dictGet?_dictInsert_ne d k k2 v hk]; exact h

theorem foldl_applyOverride_no_key (l : List UserPageAccessRow) (P : PageName)
    (h : ∀ o ∈ l, o.page_name ≠ P) (d : List (PageName × Bool)) :
    dictGet? (l.foldl applyOverride d) P = dictGet? d P := by
  induction l generalizing d with
  | nil => rfl
  | cons x t ih =>
      have hx : x.page_name ≠ P := h x (by simp)
      have ht : ∀ o ∈ t, o.page_name ≠ P := fun o ho => h o (by simp [ho])
      simp only [List.foldl_cons]
      rw [ih ht, applyOverride, dictGet?_dictInsert_ne _ _ _ _ hx]

theorem foldl_applyOverride_unique (l : List UserPageAccessRow) (P : PageName)
    (o : UserPageAccessRow) (hmem : o ∈ l) (hP : o.page_name = P)
    (hcount : l.countP (fun x => x.page_name == P) ≤ 1) (d : List (PageName × Bool)) :
    dictGet? (l.foldl applyOverride d) P = some o.has_access := by
  induction l generalizing d with
  | nil => cases hmem
  | cons x t ih =>
      by_cases hx : x.page_name = P
      · have hxb : (x.page_name == P) = true := by simp [hx]
        have hc : t.countP (fun y => y.page_name == P) = 0 := by
          rw [List.countP_cons, hxb, if_pos rfl] at hcount
          omega
        have ht : ∀ y ∈ t, y.page_name ≠ P := by
          intro y hy hyP
          have hnp := List.countP_eq_zero.mp hc y hy
          simp [hyP] at hnp
        have hox : o = x := by
          rcases List.mem_cons.mp hmem with h1 | h1
          · exact h1
          · exact absurd hP (ht o h1)
        simp only [List.foldl_cons]
        rw [foldl_applyOverride_no_key t P ht, applyOverride, hox, hx,
          dictGet?_dictInsert_self]
      · have hot : o ∈ t := by
          rcases List.mem_cons.mp hmem with h1 | h1
          · exact absurd (h1 ▸ hP) hx
          · exact h1
        have hxb : (x.page_name == P) = false := by simp [hx]
        have hct : t.countP (fun y => y.page_name == P) ≤ 1 := by
          rw [List.countP_cons, hxb, if_neg (by decide)] at hcount
          omega
        simp only [List.foldl_cons]
        exact ih hot hct _

theorem foldl_applyOverride_isSome (l : List UserPageAccessRow) (P : PageName)
    (d : List (PageName × Bool)) (h : (dictGet? d P).isSome) :
    (dictGet? (l.foldl applyOverride d) P).isSome := by
  induction l generalizing d with
  | nil => exact h
  | cons x t ih =>
      simp only [List.foldl_cons]
      exact ih _ (isSome_dictGet?_dictInsert _ _ _ _ h)

theorem rolePermissionsGet_total (role : String)
    (hrole : role = "admin" ∨ role = "manager" ∨ role = "agent" ∨ role = "viewer")
    (P : PageName) : (dictGet? (rolePermissionsGet role) P).isSome := by
  rcases hrole with h | h | h | h <;> subst h <;> cases P <;> decide

/- ------------------------------------------------------------------
C1: resolution precedence of the permission resolver.
------------------------------------------------------------------ -/

/-- C1: the resolved mapping of `get_user_permissions` assigns
`override.has_access` whenever an override row exists for `(user.id, page)`
(the override wins in both directions), the role default for
`(user.role, page)` otherwise, and contains an entry for all six pages even
when the user has zero overrides.  The override-row counting hypothesis is
the `(user_id, page_name)` uniqueness constraint of the
`user_page_access` table (alembic migration 001). -/
theorem get_user_permissions_resolution (pa : List UserPageAccessRow) (u : UserRow)
    (hrole : u.role = "admin" ∨ u.role = "manager" ∨ u.role = "agent" ∨ u.role = "viewer") :
    (∀ o ∈ pa, o.user_id = u.id →
      pa.countP (fun x => x.page_name == o.page_name && x.user_id == u.id) ≤ 1 →
      dictGet? (get_user_permissions pa u) o.page_name = some o.has_access)
    ∧ (∀ P : PageName, (∀ o ∈ pa, ¬(o.user_id = u.id ∧ o.page_name = P)) →
      dictGet? (get_user_permissions pa u) P = dictGet? (rolePermissionsGet u.role) P)
    ∧ (∀ P : PageName, (dictGet? (get_user_permissions pa u) P).isSome) := by
  refine ⟨?_, ?_, ?_⟩
  · intro o ho hou hcount
    have hmemf : o ∈ pa.filter (fun x => x.user_id == u.id) :=
      List.mem_filter.mpr ⟨ho, by simp [hou]⟩
    have hcf : (pa.filter (fun x => x.user_id == u.id)).countP
        (fun x => x.page_name == o.page_name) ≤ 1 := by
      rw [List.countP_filter]
      exact hcount
    exact foldl_applyOverride_unique _ _ o hmemf rfl hcf _
  · intro P hnone
    have hflt : ∀ x ∈ pa.filter (fun y => y.user_id == u.id), x.page_name ≠ P := by
      intro x hx hPx
      have hx2 := List.mem_filter.mp hx
      exact hnone x hx2.1 ⟨by simpa using hx2.2, hPx⟩
    exact foldl_applyOverride_no_key _ _ hflt _
  · intro P
    exact foldl_applyOverride_isSome _ _ _ (rolePermissionsGet_total u.role hrole P)

/-- A concrete viewer with one override, for the C1 witness. -/
def c1User : UserRow := ⟨1, "v@example.com", "Vera Viewer", "h", "viewer", true⟩

/-- Two override rows: one for `c1User`, one for another user. -/
def c1Overrides : List UserPageAccessRow :=
  [⟨10, 1, .candidates, true⟩, ⟨11, 2, .calls, false⟩]

/-- Witness for C1 at a concrete input: the candidates override wins over the
viewer default, calls falls back to the role default, dashboard is present. -/
theorem get_user_permissions_resolution_witness :
    dictGet? (get_user_permissions c1Overrides c1User) .candidates = some true
    ∧ dictGet? (get_user_permissions c1Overrides c1User) .calls =
      dictGet? (rolePermissionsGet c1User.role) .calls
    ∧ (dictGet? (get_user_permissions c1Overrides c1User) .dashboard).isSome := by
  have h := get_user_permissions_resolution c1Overrides c1User (by right; right; right; rfl)
  exact ⟨h.1 ⟨10, 1, .candidates, true⟩ (by decide) rfl (by decide),
    h.2.1 .calls (by decide), h.2.2 .dashboard⟩

/- ------------------------------------------------------------------
C2: the page-access gate fails closed.
------------------------------------------------------------------ -/

/-- C2: `check_page_access` succeeds iff the resolved permission for
`(user, page)` is literally `some true`; in every anomaly (page absent from
the mapping, or an unknown role — which yields the empty mapping when the
user has no overrides) it denies with the page-qualified 403, never allows. -/
theorem check_page_access_fail_closed (pa : List UserPageAccessRow) (u : UserRow)
    (P : PageName) :
    ((check_page_access pa P u).isOk = true ↔
      dictGet? (get_user_permissions pa u) P = some true)
    ∧ ((u.role ≠ "admin" ∧ u.role ≠ "manager" ∧ u.role ≠ "agent" ∧ u.role ≠ "viewer") →
      (∀ o ∈ pa, o.user_id ≠ u.id) →
      check_page_access pa P u =
        .error ⟨403, "Access denied to " ++ pageValue P ++ " page"⟩) := by
  constructor
  · unfold check_page_access
    cases h : dictGet? (get_user_permissions pa u) P with
    | none => simp [h, Except.isOk, Except.toBool]
    | some b => cases b <;> simp [h, Except.isOk, Except.toBool]
  · intro hrole hov
    have hfilter : pa.filter (fun o => o.user_id == u.id) = [] := by
      rw [List.filter_eq_nil_iff]
      intro o ho
      simpa using hov o ho
    have hperm : get_user_permissions pa u = [] := by
      unfold get_user_permissions
      rw [hfilter]
      simp [rolePermissionsGet, hrole.1, hrole.2.1, hrole.2.2.1, hrole.2.2.2]
    unfold check_page_access
    rw [hperm]
    simp [dictGet?]

/-- A user whose stored role string is outside the closed role set. -/
def c2User : UserRow := ⟨7, "g@example.com", "Ghost", "h", "ghost", true⟩

/-- Witness for C2 at a concrete input: an unknown role with no overrides is
denied (fail closed), and the success/param equivalence holds there. -/
theorem check_page_access_fail_closed_witness :
    (((check_page_access [] PageName.candidates c2User).isOk = true) ↔
      dictGet? (get_user_permissions [] c2User) PageName.candidates = some true)
    ∧ check_page_access [] PageName.candidates c2User =
      .error ⟨403, "Access denied to " ++ pageValue PageName.candidates ++ " page"⟩ := by
  have h := check_page_access_fail_closed [] c2User PageName.candidates
  exact ⟨h.1, h.2 (by refine ⟨?_, ?_, ?_, ?_⟩ <;> decide) (by decide)⟩

/- ------------------------------------------------------------------
Override Store (`app/crud/user_page_access.py`).
------------------------------------------------------------------ -/

/-- The row predicate of `get_by_user_and_page`: match on `(user_id, page_name)`. -/
def overrideKey (user_id : Nat) (page_name : PageName) (o : UserPageAccessRow) : Bool :=
  o.user_id == user_id && o.page_name == page_name

/-- `CRUDUserPageAccess.get_by_user_and_page` (app/crud/user_page_access.py
lines 10-20): `query.filter(user_id, page_name).first()`. -/
def get_by_user_and_page (page_access : List UserPageAccessRow) (user_id : Nat)
    (page_name : PageName) : Option UserPageAccessRow :=
  page_access.find? (overrideKey user_id page_name)

/-- `CRUDUserPageAccess.set_user_page_access` (app/crud/user_page_access.py
lines 22-40): upsert — update the found row in place, or insert a new row.
The `update`/`create` halves come from `CRUDBase`.
Modelled from the spec: `app/crud/base.py` (`CRUDBase.update` / `CRUDBase.create`)
is not in the source tree; spec section 4.2 fixes their contract here — "if a
row exists for (user_id, page) update its has_access and updated_at; otherwise
insert a new row".  `update` rewrites the row with the matching primary key in
place; `create` appends a fresh row under the next autoincrement id. -/
def set_user_page_access (s : DBState) (user_id : Nat) (page_name : PageName)
    (has_access : Bool) : DBState × UserPageAccessRow :=
  match get_by_user_and_page s.page_access user_id page_name with
  | some existing =>
      let updated : UserPageAccessRow := { existing with has_access := has_access }
      ({ s with page_access :=
          s.page_access.map (fun o => if o.id == existing.id then updated else o) },
        updated)
  | none =>
      let row : UserPageAccessRow := ⟨s.next_access_id, user_id, page_name, has_access⟩
      ({ s with
          page_access := s.page_access ++ [row]
          next_access_id := s.next_access_id + 1 }, row)

/- ------------------------------------------------------------------
List lemmas for the upsert proof.
------------------------------------------------------------------ -/

theorem filter_eq_singleton_of_countP_le_one {α : Type} (l : List α) (p : α → Bool)
    (e : α) (he : e ∈ l) (hpe : p e = true) (hc : l.countP p ≤ 1) :
    l.filter p = [e] := by
  have hlen : (l.filter p).length ≤ 1 := by
    rw [← List.countP_eq_length_filter]
    exact hc
  have hef : e ∈ l.filter p := List.mem_filter.mpr ⟨he, hpe⟩
  rcases hfl : l.filter p with _ | ⟨x, t⟩
  · rw [hfl] at hef
    cases hef
  · rw [hfl] at hef hlen
    have ht : t = [] := by
      simp only [List.length_cons] at hlen
      exact List.eq_nil_of_length_eq_zero (by omega)
    subst ht
    have hex : e = x := by simpa using hef
    rw [hex]

theorem filter_map_singleton {α : Type} (l : List α) (p : α → Bool) (f : α → α)
    (e e2 : α) (hpe : p e = true) (hpe2 : p e2 = true) (hfe : f e = e2)
    (hother : ∀ o ∈ l, o ≠ e → f o = o)
    (hl : l.filter p = [e]) : (l.map f).filter p = [e2] := by
  induction l with
  | nil => simp at hl
  | cons x t ih =>
      by_cases hpx : p x = true
      · rw [List.filter_cons_of_pos hpx] at hl
        have hxe : x = e := by
          have := List.head_eq_of_cons_eq hl
          exact this
        have htf : t.filter p = [] := List.tail_eq_of_cons_eq hl
        have htnone : ∀ y ∈ t, p y = false := by
          intro y hy
          by_cases hpy : p y = true
          · exfalso
            have : y ∈ t.filter p := List.mem_filter.mpr ⟨hy, hpy⟩
            rw [htf] at this
            cases this
          · simpa using hpy
        rw [List.map_cons, hxe, hfe, List.filter_cons_of_pos hpe2]
        have : (t.map f).filter p = [] := by
          rw [List.filter_eq_nil_iff]
          intro y hy
          rcases List.mem_map.mp hy with ⟨o, ho, rfl⟩
          have hoe : o ≠ e := by
            intro hcon
            subst hcon
            have := htnone o ho
            rw [hpe] at this
            cases this
          rw [hother o (by simp [ho]) hoe]
          simp [htnone o ho]
        rw [this]
      · rw [List.filter_cons_of_neg (by simpa using hpx)] at hl
        have hxe : x ≠ e := by
          intro hcon
          subst hcon
          rw [hpe] at hpx
          exact hpx rfl
        rw [List.map_cons, hother x (by simp) hxe,
          List.filter_cons_of_neg (by simpa using hpx)]
        exact ih (fun o ho hne => hother o (by simp [ho]) hne) hl

/-- One `set_user_page_access` call, from a store satisfying the DB
invariants (unique primary keys, autoincrement bound, `(user_id, page_name)`
uniqueness), leaves exactly one override row for the key — carrying the
written value — and preserves all three invariants. -/
theorem set_user_page_access_step (s : DBState) (user_id : Nat) (P : PageName) (v : Bool)
    (hids : (s.page_access.map (fun o => o.id)).Nodup)
    (hbound : ∀ o ∈ s.page_access, o.id < s.next_access_id)
    (hone : s.page_access.countP (overrideKey user_id P) ≤ 1) :
    (∃ i, (set_user_page_access s user_id P v).1.page_access.filter
        (overrideKey user_id P) = [⟨i, user_id, P, v⟩])
    ∧ ((set_user_page_access s user_id P v).1.page_access.map (fun o => o.id)).Nodup
    ∧ (∀ o ∈ (set_user_page_access s user_id P v).1.page_access,
        o.id < (set_user_page_access s user_id P v).1.next_access_id)
    ∧ (set_user_page_access s user_id P v).1.page_access.countP
        (overrideKey user_id P) ≤ 1 := by
  cases hfind : get_by_user_and_page s.page_access user_id P with
  | none =>
      have hnone : ∀ o ∈ s.page_access, ¬ overrideKey user_id P o := by
        unfold get_by_user_and_page at hfind
        exact List.find?_eq_none.mp hfind
      have hfilter : (set_user_page_access s user_id P v).1.page_access.filter
          (overrideKey user_id P) = [⟨s.next_access_id, user_id, P, v⟩] := by
        simp only [set_user_page_access, hfind]
        rw [List.filter_append, List.filter_eq_nil_iff.mpr hnone]
        simp [overrideKey]
      refine ⟨⟨s.next_access_id, hfilter⟩, ?_, ?_, ?_⟩
      · simp only [set_user_page_access, hfind, List.map_append]
        refine List.Nodup.append hids (by simp) ?_
        intro a ha1 ha2
        simp only [List.map_cons, List.map_nil, List.mem_cons, List.not_mem_nil,
          or_false] at ha2
        rcases List.mem_map.mp ha1 with ⟨o, ho, rfl⟩
        have := hbound o ho
        omega
      · intro o ho
        simp only [set_user_page_access, hfind] at ho ⊢
        rcases List.mem_append.mp ho with h1 | h1
        · have := hbound o h1
          omega
        · simp only [List.mem_cons, List.not_mem_nil, or_false] at h1
          subst h1
          exact Nat.lt_succ_self _
      · rw [List.countP_eq_length_filter, hfilter]
        simp
  | some e =>
      have hfindq : s.page_access.find? (overrideKey user_id P) = some e := hfind
      have hpe : overrideKey user_id P e = true := List.find?_some hfindq
      have hmem : e ∈ s.page_access := List.mem_of_find?_eq_some hfindq
      have hfl : s.page_access.filter (overrideKey user_id P) = [e] :=
        filter_eq_singleton_of_countP_le_one _ _ e hmem hpe hone
      have heu : e.user_id = user_id ∧ e.page_name = P := by
        have h2 := hpe
        simp [overrideKey] at h2
        exact h2
      have hupd : ({ e with has_access := v } : UserPageAccessRow) =
          ⟨e.id, user_id, P, v⟩ := by
        obtain ⟨i, uid, pn, ha⟩ := e
        obtain ⟨h1, h2⟩ := heu
        simp only at h1 h2
        subst h1
        subst h2
        rfl
      have hother : ∀ o ∈ s.page_access, o ≠ e →
          (if o.id == e.id then ({ e with has_access := v } : UserPageAccessRow) else o)
            = o := by
        intro o ho hne
        have hid : ¬(o.id = e.id) := by
          intro hcon
          exact hne (List.inj_on_of_nodup_map hids ho hmem hcon)
        simp [hid]
      have hkey2 : overrideKey user_id P ({ e with has_access := v } : UserPageAccessRow)
          = true := by
        simp [overrideKey, heu.1, heu.2]
      have hfe : (if e.id == e.id then ({ e with has_access := v } : UserPageAccessRow)
          else e) = { e with has_access := v } := by simp
      have hfilter : (set_user_page_access s user_id P v).1.page_access.filter
          (overrideKey user_id P) = [⟨e.id, user_id, P, v⟩] := by
        simp only [set_user_page_access, hfind]
        rw [filter_map_singleton s.page_access (overrideKey user_id P)
          (fun o => if o.id == e.id then { e with has_access := v } else o) e
          ({ e with has_access := v }) hpe hkey2 hfe hother hfl, hupd]
      refine ⟨⟨e.id, hfilter⟩, ?_, ?_, ?_⟩
      · simp only [set_user_page_access, hfind, List.map_map]
        have : (s.page_access.map ((fun o => o.id) ∘
            (fun o => if o.id == e.id then ({ e with has_access := v } :
              UserPageAccessRow) else o))) = s.page_access.map (fun o => o.id) := by
          apply List.map_congr_left
          intro o ho
          by_cases hid : o.id = e.id
          · simp [Function.comp, hid]
          · simp [Function.comp, hid]
        rw [this]
        exact hids
      · intro o ho
        simp only [set_user_page_access, hfind] at ho ⊢
        rcases List.mem_map.mp ho with ⟨o2, ho2, rfl⟩
        by_cases hid : o2.id = e.id
        · simp only [hid, beq_self_eq_true, if_true]
          have := hbound e hmem
          omega
        · simp only [beq_iff_eq, hid, if_false]
          exact hbound o2 ho2
      · rw [List.countP_eq_length_filter, hfilter]
        simp

/- ------------------------------------------------------------------
C8: `set_user_page_access` is an upsert (sequential idempotence of the
row count).
------------------------------------------------------------------ -/

/-- C8: starting from a store satisfying the schema invariants (unique row
ids below the autoincrement counter, and the `(user_id, page_name)`
uniqueness constraint of migration 001), calling `set(u, P, v)` and then
`set(u, P, v2)` leaves exactly one override row for `(u, P)`, and its
`has_access` is `v2` — the second call updates in place, never duplicating. -/
theorem set_user_page_access_upsert (s : DBState) (u : Nat) (P : PageName) (v v2 : Bool)
    (hids : (s.page_access.map (fun o => o.id)).Nodup)
    (hbound : ∀ o ∈ s.page_access, o.id < s.next_access_id)
    (hone : s.page_access.countP (overrideKey u P) ≤ 1) :
    ((set_user_page_access (set_user_page_access s u P v).1 u P v2).1.page_access.filter
        (overrideKey u P)).map (fun o => o.has_access) = [v2]
    ∧ ((set_user_page_access (set_user_page_access s u P v).1 u P v2).1.page_access.filter
        (overrideKey u P)).length = 1 := by
  obtain ⟨⟨i, hf1⟩, hn1, hb1, hc1⟩ := set_user_page_access_step s u P v hids hbound hone
  obtain ⟨⟨j, hf2⟩, hn2, hb2, hc2⟩ :=
    set_user_page_access_step (set_user_page_access s u P v).1 u P v2 hn1 hb1 hc1
  rw [hf2]
  constructor <;> rfl

/-- An empty store, for the C8 witness. -/
def c8State : DBState := ⟨[], [], [], 1, 1, 1, 0⟩

/-- Witness for C8 at a concrete input: setting calls access for user 1 to
`true` then to `false` leaves exactly one row whose value is `false`. -/
theorem set_user_page_access_upsert_witness :
    ((set_user_page_access (set_user_page_access c8State 1 .calls true).1 1
        .calls false).1.page_access.filter (overrideKey 1 .calls)).map
        (fun o => o.has_access) = [false]
    ∧ ((set_user_page_access (set_user_page_access c8State 1 .calls true).1 1
        .calls false).1.page_access.filter (overrideKey 1 .calls)).length = 1 :=
  set_user_page_access_upsert c8State 1 .calls true false (by decide) (by decide)
    (by decide)

/- ------------------------------------------------------------------
Audit log read path (`app/crud/audit_log.py`).
------------------------------------------------------------------ -/

/-- `ORDER BY timestamp DESC`. -/
def sortByTimestampDesc (l : List AuditLogRow) : List AuditLogRow :=
  l.mergeSort (fun a b => decide (b.timestamp ≤ a.timestamp))

/-- The inner join `query.join(AuditLog.actor)` of the manager branch of
`get_recent_logs`: one joined row per (log, user) pair with
`users.id = audit_logs.actor_id`. -/
def joinActor (users : List UserRow) (logs : List AuditLogRow) :
    List (AuditLogRow × UserRow) :=
  logs.flatMap (fun l => (users.filter (fun u => u.id == l.actor_id)).map (fun u => (l, u)))

/-- `CRUDAuditLog.get_recent_logs` (app/crud/audit_log.py lines 10-36):
role-scoped visibility filter, then `ORDER BY timestamp DESC LIMIT limit`.
The manager branch is an inner join on the actor filtered by
`User.role != "admin"`; the agent/viewer branch keeps only the requester's
own rows; any other role string falls through with no filter. -/
def get_recent_logs (s : DBState) (limit : Nat) (user_role : String) (user_id : Nat) :
    List AuditLogRow :=
  let filtered :=
    if user_role == "admin" then s.audit_logs
    else if user_role == "manager" then
      ((joinActor s.users s.audit_logs).filter (fun p => p.2.role != "admin")).map
        (fun p => p.1)
    else if user_role == "agent" || user_role == "viewer" then
      s.audit_logs.filter (fun l => l.actor_id == user_id)
    else s.audit_logs
  (sortByTimestampDesc filtered).take limit

/-- `CRUDAuditLog.get_user_logs` (app/crud/audit_log.py lines 38-51): rows
where the user appears as actor OR as target, newest first, then
`OFFSET skip LIMIT limit`. -/
def get_user_logs (s : DBState) (user_id skip limit : Nat) : List AuditLogRow :=
  (((sortByTimestampDesc (s.audit_logs.filter
      (fun l => l.actor_id == user_id || l.target_user_id == some user_id))).drop
    skip).take limit)

/- ------------------------------------------------------------------
Audit log write path (`crud_audit_log.create`).
------------------------------------------------------------------ -/

/-- `AuditLogCreate` (app/schemas/audit_log.py). -/
structure AuditLogCreate where
  actor_id : Nat
  action : String
  target : Option String
  target_user_id : Option Nat
  meta_data : Json

/-- `crud_audit_log.create(db, obj_in=...)`.
Modelled from the spec: `app/crud/base.py` (`CRUDBase.create`) is not in the
source tree; spec section 4.4 fixes the contract — each call inserts a new,
distinct entry with a server-assigned timestamp (`func.now()`), no
idempotence. -/
def audit_log_create (s : DBState) (entry : AuditLogCreate) : DBState × AuditLogRow :=
  let row : AuditLogRow :=
    ⟨s.next_log_id, entry.actor_id, entry.action, entry.target, entry.target_user_id,
      entry.meta_data, s.clock⟩
  ({ s with
      audit_logs := s.audit_logs ++ [row]
      next_log_id := s.next_log_id + 1
      clock := s.clock + 1 }, row)

/- ------------------------------------------------------------------
Audit endpoints (`app/api/v1/endpoints/audit_logs.py`).
------------------------------------------------------------------ -/

/-- The response dict built by the audit read endpoints: the row fields plus
actor/target display names resolved at read time. -/
structure EnrichedLog where
  id : Nat
  actor_id : Nat
  action : String
  target : Option String
  target_user_id : Option Nat
  meta_data : Option Json
  timestamp : Nat
  actor_name : Option String
  target_user_name : Option String

/-- The name-resolution join of the endpoints:
`log.actor.full_name if log.actor else None`, and likewise for the target
user.  A dangling reference resolves to `none`. -/
def enrichLog (users : List UserRow) (l : AuditLogRow) : EnrichedLog :=
  { id := l.id
    actor_id := l.actor_id
    action := l.action
    target := l.target
    target_user_id := l.target_user_id
    meta_data := some l.meta_data
    timestamp := l.timestamp
    actor_name := (users.find? (fun u => u.id == l.actor_id)).map (fun u => u.full_name)
    target_user_name :=
      match l.target_user_id with
      | none => none
      | some t => (users.find? (fun u => u.id == t)).map (fun u => u.full_name) }

/-- `limit: int = Query(default=50, lte=100)` (audit_logs.py lines 22, 60, 93):
absent means 50.  `lte` is not a validation keyword of FastAPI's `Query`
(the bound keyword is spelled `le`), so it lands in the ignored schema
extras and NO bound is checked or applied — the requested value is used
as-is. -/
def parse_limit (limitQ : Option Nat) : Nat := limitQ.getD 50

/-- `GET /audit-logs/recent` (`get_recent_audit_logs`, audit_logs.py lines
19-52): any authenticated user; role-scoped filter in the CRUD layer; rows
enriched with display names. -/
def get_recent_audit_logs (s : DBState) (limitQ : Option Nat) (cu : UserRow) :
    List EnrichedLog :=
  (get_recent_logs s (parse_limit limitQ) cu.role cu.id).map (enrichLog s.users)

/-- `GET /audit-logs/user/{user_id}` (`get_user_audit_logs`, audit_logs.py
lines 55-86): a non-admin asking for another user's id is silently
redirected to their own id, then `get_user_logs` runs for the resolved id.
(This endpoint reads `log.metadata` — the SQLAlchemy declarative `MetaData`
object, not the `meta_data` JSON column — so no row metadata reaches the
response; the enriched metadata is `none` here.) -/
def get_user_audit_logs (s : DBState) (user_id : Nat) (skip : Nat)
    (limitQ : Option Nat) (cu : UserRow) : List EnrichedLog :=
  let uid := if cu.role != "admin" && cu.id != user_id then cu.id else user_id
  (get_user_logs s uid skip (parse_limit limitQ)).map
    (fun l => { enrichLog s.users l with meta_data := none })

/- ------------------------------------------------------------------
User management endpoints (`app/api/v1/endpoints/users.py`).
------------------------------------------------------------------ -/

/-- Char-list helper: does `s` start with `pat`? -/
def charsStartWith : List Char → List Char → Bool
  | [], _ => true
  | _ :: _, [] => false
  | x :: xs, y :: ys => x == y && charsStartWith (x :: xs).tail (y :: ys).tail

/-- Char-list helper: does `s` contain `pat` as a contiguous run? -/
def charsContain (pat : List Char) : List Char → Bool
  | [] => pat.isEmpty
  | y :: t => charsStartWith pat (y :: t) || charsContain pat t

/-- `column.ilike(f"%{search}%")`: case-insensitive containment. -/
def ilike (value pat : String) : Bool :=
  charsContain pat.toLower.toList value.toLower.toList

/-- `CRUDUser.get_by_email` (app/crud/user.py lines 15-16). -/
def get_by_email (users : List UserRow) (email : String) : Option UserRow :=
  users.find? (fun u => u.email == email)

/-- `get_password_hash`.
Modelled from the spec: `app/core/security.py` is not in the source tree and
the hash algorithm is an explicit non-goal of the spec (section 1); any
function of the password serves the claims, none of which inspect hashes. -/
def get_password_hash (password : String) : String := "bcrypt$" ++ password

/-- `UserCreate` (schema fields as consumed by `CRUDUser.create`).
Modelled from the spec: `app/schemas/user.py` is not in the source tree;
fields follow the data model of spec section 3 and the uses in
app/crud/user.py lines 18-29. -/
structure UserCreate where
  email : String
  full_name : String
  password : String
  role : String
  active : Bool

/-- `UserUpdate` with `exclude_unset` semantics: `none` = field not sent.
Modelled from the spec: `app/schemas/user.py` is not in the source tree;
fields follow the uses in app/crud/user.py lines 31-44 and users.py 96-102. -/
structure UserUpdate where
  email : Option String := none
  full_name : Option String := none
  password : Option String := none
  role : Option String := none
  active : Option Bool := none

/-- `CRUDUser.create` (app/crud/user.py lines 18-29, insert half
modelled from the spec because `app/crud/base.py` is absent): build the row,
hash the password, append under the next autoincrement id. -/
def crud_user_create (s : DBState) (obj_in : UserCreate) : DBState × UserRow :=
  let row : UserRow :=
    ⟨s.next_user_id, obj_in.email, obj_in.full_name, get_password_hash obj_in.password,
      obj_in.role, obj_in.active⟩
  ({ s with
      users := s.users ++ [row]
      next_user_id := s.next_user_id + 1 }, row)

/-- The field application of `CRUDUser.update` (app/crud/user.py lines
31-44): set fields present in `exclude_unset` update data; `password` is
hashed into `password_hash`. -/
def apply_user_update (u : UserRow) (upd : UserUpdate) : UserRow :=
  { u with
      email := upd.email.getD u.email
      full_name := upd.full_name.getD u.full_name
      role := upd.role.getD u.role
      active := upd.active.getD u.active
      password_hash :=
        match upd.password with
        | some p => get_password_hash p
        | none => u.password_hash }

/-- `CRUDUser.update` (write-back half modelled from the spec because
`app/crud/base.py` is absent): rewrite the row with the matching primary
key in place. -/
def crud_user_update (s : DBState) (db_obj : UserRow) (upd : UserUpdate) :
    DBState × UserRow :=
  let updated := apply_user_update db_obj upd
  ({ s with
      users := s.users.map (fun u => if u.id == db_obj.id then updated else u) },
    updated)

/-- `CRUDUser.get(db, id=...)` by primary key (from `CRUDBase`, modelled
from the spec because `app/crud/base.py` is absent). -/
def crud_user_get (users : List UserRow) (user_id : Nat) : Option UserRow :=
  users.find? (fun u => u.id == user_id)

/-- `CRUDUser.get_multi_with_permissions` (app/crud/user.py lines 105-136):
optional case-insensitive name/email search, offset/limit, then pair each
user with their resolved permissions. -/
def get_multi_with_permissions (s : DBState) (skip limit : Nat)
    (search : Option String) : List (UserRow × List (PageName × Bool)) :=
  let users :=
    match search with
    | some q =>
        ((s.users.filter (fun (u : UserRow) => ilike u.full_name q || ilike u.email q)).drop
          skip).take limit
    | none => ((s.users.drop skip).take limit)
  users.map (fun u => (u, get_user_permissions s.page_access u))

/-- `GET /users/` (`read_users`, users.py lines 22-33): admin gate, then the
user list with permissions.  (Its `limit` also uses the inert `lte=100`.) -/
def read_users (s : DBState) (skip limit : Nat) (search : Option String)
    (cu : UserRow) : Except ApiErr (List (UserRow × List (PageName × Bool))) :=
  match get_current_admin_user cu with
  | .error e => .error e
  | .ok _ => .ok (get_multi_with_permissions s skip limit search)

/-- `POST /users/` (`create_user`, users.py lines 36-68): admin gate,
duplicate-email 400, insert, audit entry. -/
def create_user (s : DBState) (user_in : UserCreate) (cu : UserRow) :
    Except ApiErr (DBState × UserRow) :=
  match get_current_admin_user cu with
  | .error e => .error e
  | .ok current_user =>
      match get_by_email s.users user_in.email with
      | some _ => .error ⟨400, "The user with this email already exists."⟩
      | none =>
          let created := crud_user_create s user_in
          let logged := audit_log_create created.1
            ⟨current_user.id, "create_user", some ("user:" ++ toString created.2.id),
              some created.2.id,
              .obj [("email", .str created.2.email),
                ("full_name", .str created.2.full_name),
                ("role", .str created.2.role)]⟩
          .ok (logged.1, created.2)

/-- The `changes` dict of `update_user` (users.py lines 96-102): `password`
maps to `"changed"`, every other sent field is recorded iff its value
differs from the original. -/
def userUpdateChanges (user : UserRow) (user_in : UserUpdate) : List (String × Json) :=
  (match user_in.email with
    | some v => if user.email != v then
        [("email", Json.obj [("from", .str user.email), ("to", .str v)])] else []
    | none => []) ++
  (match user_in.full_name with
    | some v => if user.full_name != v then
        [("full_name", Json.obj [("from", .str user.full_name), ("to", .str v)])] else []
    | none => []) ++
  (match user_in.password with
    | some _ => [("password", Json.str "changed")]
    | none => []) ++
  (match user_in.role with
    | some v => if user.role != v then
        [("role", Json.obj [("from", .str user.role), ("to", .str v)])] else []
    | none => []) ++
  (match user_in.active with
    | some v => if user.active != v then
        [("active", Json.obj [("from", .boolean user.active), ("to", .boolean v)])]
      else []
    | none => [])

/-- `PUT /users/{user_id}` (`update_user`, users.py lines 71-114): admin
gate, 404 if absent, apply the update, audit entry iff something changed. -/
def update_user (s : DBState) (user_id : Nat) (user_in : UserUpdate) (cu : UserRow) :
    Except ApiErr (DBState × UserRow) :=
  match get_current_admin_user cu with
  | .error e => .error e
  | .ok current_user =>
      match crud_user_get s.users user_id with
      | none => .error ⟨404, "User not found"⟩
      | some user =>
          let upd := crud_user_update s user user_in
          let changes := userUpdateChanges user user_in
          let s2 :=
            if changes.isEmpty then upd.1
            else (audit_log_create upd.1
              ⟨current_user.id, "update_user", some ("user:" ++ toString upd.2.id),
                some upd.2.id, .obj [("changes", .obj changes)]⟩).1
          .ok (s2, upd.2)

/-- `GET /users/{user_id}` (`read_user_by_id`, users.py lines 117-141):
admin gate, 404 if absent, user plus resolved permissions. -/
def read_user_by_id (s : DBState) (user_id : Nat) (cu : UserRow) :
    Except ApiErr (UserRow × List (PageName × Bool)) :=
  match get_current_admin_user cu with
  | .error e => .error e
  | .ok _ =>
      match crud_user_get s.users user_id with
      | none => .error ⟨404, "User not found"⟩
      | some user => .ok (user, get_user_permissions s.page_access user)

/-- `DELETE /users/{user_id}` (`delete_user`, users.py lines 144-178): admin
gate, 404 if absent, 400 on self-delete, remove the row (`CRUDBase.remove`,
modelled from the spec because `app/crud/base.py` is absent: delete the row
with the given primary key), audit entry. -/
def delete_user (s : DBState) (user_id : Nat) (cu : UserRow) :
    Except ApiErr (DBState × String) :=
  match get_current_admin_user cu with
  | .error e => .error e
  | .ok current_user =>
      match crud_user_get s.users user_id with
      | none => .error ⟨404, "User not found"⟩
      | some user =>
          if user.id == current_user.id then
            .error ⟨400, "Cannot delete your own account"⟩
          else
            let s1 := { s with users := s.users.filter (fun u => !(u.id == user_id)) }
            let logged := audit_log_create s1
              ⟨current_user.id, "delete_user", some ("user:" ++ toString user_id),
                some user_id,
                .obj [("email", .str user.email), ("full_name", .str user.full_name),
                  ("role", .str user.role)]⟩
            .ok (logged.1, "User deleted successfully")

/-- `PUT /users/{user_id}/page-access/{page_name}` (`update_user_page_access`,
users.py lines 181-218): admin gate, 404 if absent, read the prior effective
value, upsert the override, audit entry iff the value changed; the response
is only a success message. -/
def update_user_page_access (s : DBState) (user_id : Nat) (page_name : PageName)
    (has_access : Bool) (cu : UserRow) : Except ApiErr (DBState × String) :=
  match get_current_admin_user cu with
  | .error e => .error e
  | .ok current_user =>
      match crud_user_get s.users user_id with
      | none => .error ⟨404, "User not found"⟩
      | some user =>
          let current_access :=
            (dictGet? (get_user_permissions s.page_access user) page_name).getD false
          let s1 := (set_user_page_access s user_id page_name has_access).1
          let s2 :=
            if current_access != has_access then
              (audit_log_create s1
                ⟨current_user.id, "update_page_access",
                  some ("user:" ++ toString user_id ++ ":page:" ++ pageValue page_name),
                  some user_id,
                  .obj [("page", .str (pageValue page_name)),
                    ("access_granted", .boolean has_access),
                    ("previous_access", .boolean current_access)]⟩).1
            else s1
          .ok (s2, "Page access updated for " ++ pageValue page_name)

/-- Whether an endpoint outcome is an authorization denial (HTTP 403). -/
def isForbidden {α : Type} (r : Except ApiErr α) : Bool :=
  match r with
  | .error e => e.status_code == 403
  | .ok _ => false

/- ------------------------------------------------------------------
C7: redirect-not-deny on `GET /audit-logs/user/{user_id}`.
------------------------------------------------------------------ -/

/-- C7: a non-admin requesting another user's audit history is silently
redirected to their own id — the call returns exactly the requester's own
history (no error path exists), and every returned entry involves the
requester as actor or as target, never the other user's unrelated entries. -/
theorem get_user_audit_logs_redirect (s : DBState) (target skip : Nat)
    (limitQ : Option Nat) (cu : UserRow)
    (hrole : cu.role ≠ "admin") (hne : cu.id ≠ target) :
    get_user_audit_logs s target skip limitQ cu
      = get_user_audit_logs s cu.id skip limitQ cu
    ∧ ∀ e ∈ get_user_audit_logs s target skip limitQ cu,
        e.actor_id = cu.id ∨ e.target_user_id = some cu.id := by
  have hcond : (cu.role != "admin" && cu.id != target) = true := by
    simp [hrole, hne]
  have hcond2 : (cu.role != "admin" && cu.id != cu.id) = false := by
    simp
  have hred : get_user_audit_logs s target skip limitQ cu
      = (get_user_logs s cu.id skip (parse_limit limitQ)).map
        (fun l => { enrichLog s.users l with meta_data := none }) := by
    simp only [get_user_audit_logs, hcond, if_true]
  constructor
  · rw [hred]
    simp only [get_user_audit_logs, hcond2, Bool.false_eq_true, if_false]
  · intro e he
    rw [hred] at he
    rcases List.mem_map.mp he with ⟨l, hl, rfl⟩
    unfold get_user_logs at hl
    have hl2 := List.drop_subset _ _ (List.take_subset _ _ hl)
    have hl3 := List.mem_mergeSort.mp hl2
    have hl4 := (List.mem_filter.mp hl3).2
    simp only [Bool.or_eq_true, beq_iff_eq] at hl4
    simpa [enrichLog] using hl4

/-- A viewer and an unrelated target id, for the C7 witness. -/
def c7Viewer : UserRow := ⟨3, "v@x", "Vic Viewer", "h", "viewer", true⟩

/-- One entry authored by the viewer, one authored by someone else. -/
def c7State : DBState :=
  ⟨[c7Viewer], [], [⟨1, 3, "login", none, none, .null, 5⟩,
    ⟨2, 9, "login", none, none, .null, 6⟩], 4, 1, 3, 7⟩

/-- Witness for C7 at a concrete input: the viewer asking for user 9's
history gets their own history instead, and each entry involves them. -/
theorem get_user_audit_logs_redirect_witness :
    (get_user_audit_logs c7State 9 0 none c7Viewer
      = get_user_audit_logs c7State c7Viewer.id 0 none c7Viewer)
    ∧ ∀ e ∈ get_user_audit_logs c7State 9 0 none c7Viewer,
        e.actor_id = c7Viewer.id ∨ e.target_user_id = some c7Viewer.id :=
  get_user_audit_logs_redirect c7State 9 0 none c7Viewer (by decide) (by decide)

/- ------------------------------------------------------------------
C6: permission-change endpoint — response shape and audit condition.
------------------------------------------------------------------ -/

theorem set_user_page_access_audit_frame (s : DBState) (uid : Nat) (P : PageName)
    (v : Bool) :
    (set_user_page_access s uid P v).1.audit_logs = s.audit_logs
    ∧ (set_user_page_access s uid P v).1.next_log_id = s.next_log_id
    ∧ (set_user_page_access s uid P v).1.clock = s.clock := by
  cases hfind : get_by_user_and_page s.page_access uid P <;>
    simp [set_user_page_access, hfind]

/-- C6 (amended): on success for an existing target,
`update_user_page_access` returns ONLY the success message naming the page —
the prior effective value is not part of the response — and an audit entry
is appended iff the new `has_access` differs from the prior effective value;
when appended, the prior value travels in the entry metadata
(`previous_access`), alongside the new one (`access_granted`). -/
theorem update_user_page_access_audit_iff_changed (s : DBState) (uid : Nat)
    (P : PageName) (v : Bool) (cu user : UserRow)
    (hadmin : cu.role = "admin")
    (hfound : crud_user_get s.users uid = some user) :
    ∃ s2, update_user_page_access s uid P v cu
        = .ok (s2, "Page access updated for " ++ pageValue P)
      ∧ ((dictGet? (get_user_permissions s.page_access user) P).getD false = v →
          s2.audit_logs = s.audit_logs)
      ∧ ((dictGet? (get_user_permissions s.page_access user) P).getD false ≠ v →
          s2.audit_logs.length = s.audit_logs.length + 1
          ∧ s2.audit_logs.getLast? = some
              ⟨s.next_log_id, cu.id, "update_page_access",
                some ("user:" ++ toString uid ++ ":page:" ++ pageValue P), some uid,
                .obj [("page", .str (pageValue P)), ("access_granted", .boolean v),
                  ("previous_access", .boolean
                    ((dictGet? (get_user_permissions s.page_access user) P).getD false))],
                s.clock⟩) := by
  have hgate : get_current_admin_user cu = .ok cu := by
    simp [get_current_admin_user, hadmin]
  obtain ⟨hframe1, hframe2, hframe3⟩ := set_user_page_access_audit_frame s uid P v
  by_cases hch : (dictGet? (get_user_permissions s.page_access user) P).getD false = v
  · refine ⟨(set_user_page_access s uid P v).1, ?_, fun _ => hframe1, fun hc => absurd hch hc⟩
    simp only [update_user_page_access, hgate, hfound, hch]
    simp
  · refine ⟨(audit_log_create (set_user_page_access s uid P v).1
      ⟨cu.id, "update_page_access",
        some ("user:" ++ toString uid ++ ":page:" ++ pageValue P), some uid,
        .obj [("page", .str (pageValue P)), ("access_granted", .boolean v),
          ("previous_access", .boolean
            ((dictGet? (get_user_permissions s.page_access user) P).getD false))]⟩).1,
      ?_, fun hc => absurd hc hch, fun _ => ?_⟩
    · simp only [update_user_page_access, hgate, hfound]
      have hne : ((dictGet? (get_user_permissions s.page_access user) P).getD false != v)
          = true := by simp [hch]
      simp only [hne, if_true]
    · constructor
      · simp [audit_log_create, hframe1]
      · simp only [audit_log_create, hframe1, hframe2, hframe3]
        exact List.getLast?_concat _

/-- Admin and target rows for the C6 scenario. -/
def c6Admin : UserRow := ⟨1, "a@x", "Ana Admin", "h", "admin", true⟩

/-- The target user of the C6 scenario (a viewer). -/
def c6Target : UserRow := ⟨2, "t@x", "Tia Target", "h", "viewer", true⟩

/-- State A: the target already has a grant override for candidates
(prior effective value `true`). -/
def c6StateA : DBState :=
  ⟨[c6Admin, c6Target], [⟨1, 2, .candidates, true⟩], [], 3, 2, 1, 0⟩

/-- State B: no override (viewer default for candidates is `false`). -/
def c6StateB : DBState :=
  ⟨[c6Admin, c6Target], [], [], 3, 1, 1, 0⟩

/-- Counterexample to C6 as stated: the endpoint response does NOT carry the
prior effective value — two stores whose prior values for
`(user 2, candidates)` differ (`true` in A, `false` in B) produce the very
same successful response body, so no caller can read a prior value off the
response. -/
theorem update_user_page_access_response_hides_prior :
    (update_user_page_access c6StateA 2 .candidates true c6Admin).map (fun r => r.2)
      = (update_user_page_access c6StateB 2 .candidates true c6Admin).map (fun r => r.2)
    ∧ (dictGet? (get_user_permissions c6StateA.page_access c6Target) .candidates).getD
        false = true
    ∧ (dictGet? (get_user_permissions c6StateB.page_access c6Target) .candidates).getD
        false = false := by
  refine ⟨?_, ?_, ?_⟩ <;> rfl

/-- Witness for the amended C6 at a concrete input: granting candidates to
the target in state B (prior `false`) succeeds with the bare message and
appends exactly one audit entry carrying `previous_access := false`. -/
theorem update_user_page_access_audit_iff_changed_witness :
    ∃ s2, update_user_page_access c6StateB 2 .candidates true c6Admin
        = .ok (s2, "Page access updated for " ++ pageValue .candidates)
      ∧ ((dictGet? (get_user_permissions c6StateB.page_access c6Target)
            .candidates).getD false = true → s2.audit_logs = c6StateB.audit_logs)
      ∧ ((dictGet? (get_user_permissions c6StateB.page_access c6Target)
            .candidates).getD false ≠ true →
          s2.audit_logs.length = c6StateB.audit_logs.length + 1
          ∧ s2.audit_logs.getLast? = some
              ⟨c6StateB.next_log_id, c6Admin.id, "update_page_access",
                some ("user:" ++ toString 2 ++ ":page:" ++ pageValue .candidates),
                some 2,
                .obj [("page", .str (pageValue .candidates)),
                  ("access_granted", .boolean true),
                  ("previous_access", .boolean
                    ((dictGet? (get_user_permissions c6StateB.page_access c6Target)
                      .candidates).getD false))],
                c6StateB.clock⟩) :=
  update_user_page_access_audit_iff_changed c6StateB 2 .candidates true c6Admin
    c6Target rfl rfl

/- ------------------------------------------------------------------
C9: deleting an actor never breaks the audit listing; names resolve to none.
------------------------------------------------------------------ -/

/-- C9: after an admin deletes a user who authored N audit entries, an
admin's `/audit-logs/recent` (with a large enough limit) still returns an
enriched version of every one of those entries, each with
`actor_name = none`; the read-time name join never errors on a dangling
actor reference. -/
theorem delete_user_keeps_audit_entries (s : DBState) (cu target : UserRow)
    (limit : Nat)
    (hadmin : cu.role = "admin")
    (hfound : crud_user_get s.users target.id = some target)
    (hne : target.id ≠ cu.id)
    (hlimit : s.audit_logs.length + 1 ≤ limit) :
    ∃ s2, delete_user s target.id cu = .ok (s2, "User deleted successfully")
      ∧ ∀ e ∈ s.audit_logs, e.actor_id = target.id →
          enrichLog s2.users e ∈ get_recent_audit_logs s2 (some limit) cu
          ∧ (enrichLog s2.users e).actor_name = none := by
  have hgate : get_current_admin_user cu = .ok cu := by
    simp [get_current_admin_user, hadmin]
  have hself : (target.id == cu.id) = false := by simp [hne]
  set s1 : DBState :=
    { s with users := s.users.filter (fun u => !(u.id == target.id)) } with hs1
  set entry : AuditLogCreate :=
    ⟨cu.id, "delete_user", some ("user:" ++ toString target.id), some target.id,
      .obj [("email", .str target.email), ("full_name", .str target.full_name),
        ("role", .str target.role)]⟩ with hentry
  refine ⟨(audit_log_create s1 entry).1, ?_, ?_⟩
  · simp only [delete_user, hgate, hfound, hself, Bool.false_eq_true, if_false]
  · intro e he hact
    have husers : (audit_log_create s1 entry).1.users
        = s.users.filter (fun u => !(u.id == target.id)) := by
      simp [audit_log_create, hs1]
    have hlogs : (audit_log_create s1 entry).1.audit_logs
        = s.audit_logs ++ [⟨s.next_log_id, cu.id, "delete_user",
            some ("user:" ++ toString target.id), some target.id,
            .obj [("email", .str target.email), ("full_name", .str target.full_name),
              ("role", .str target.role)], s.clock⟩] := by
      simp [audit_log_create, hs1, hentry]
    have hname : ((audit_log_create s1 entry).1.users.find?
        (fun u => u.id == e.actor_id)) = none := by
      rw [husers, List.find?_eq_none]
      intro u hu
      have hu2 := (List.mem_filter.mp hu).2
      simp only [Bool.not_eq_eq_eq_not, Bool.not_true, beq_eq_false_iff_ne] at hu2
      simp [hact, hu2]
    constructor
    · unfold get_recent_audit_logs
      apply List.mem_map_of_mem
      unfold get_recent_logs
      have hrole2 : (cu.role == "admin") = true := by simp [hadmin]
      simp only [hrole2, if_true]
      have hlen : (sortByTimestampDesc
          (audit_log_create s1 entry).1.audit_logs).length ≤ parse_limit (some limit) := by
        unfold sortByTimestampDesc
        rw [List.length_mergeSort, hlogs]
        simp only [List.length_append, List.length_cons, List.length_nil]
        simpa [parse_limit] using hlimit
      rw [List.take_of_length_le hlen]
      unfold sortByTimestampDesc
      rw [List.mem_mergeSort, hlogs]
      exact List.mem_append_left _ he
    · simp only [enrichLog, hname]
      rfl

/-- Admin for the C9 witness. -/
def c9Admin : UserRow := ⟨1, "a@x", "Ana Admin", "h", "admin", true⟩

/-- The to-be-deleted actor for the C9 witness. -/
def c9Target : UserRow := ⟨2, "d@x", "Del Target", "h", "agent", true⟩

/-- Two audit entries authored by the target. -/
def c9State : DBState :=
  ⟨[c9Admin, c9Target], [],
    [⟨1, 2, "login", none, none, .null, 1⟩, ⟨2, 2, "logout", none, none, .null, 2⟩],
    3, 1, 3, 3⟩

/-- Witness for C9 at a concrete input. -/
theorem delete_user_keeps_audit_entries_witness :
    ∃ s2, delete_user c9State c9Target.id c9Admin = .ok (s2, "User deleted successfully")
      ∧ ∀ e ∈ c9State.audit_logs, e.actor_id = c9Target.id →
          enrichLog s2.users e ∈ get_recent_audit_logs s2 (some 10) c9Admin
          ∧ (enrichLog s2.users e).actor_name = none :=
  delete_user_keeps_audit_entries c9State c9Admin c9Target 10 rfl rfl (by decide)
    (by decide)

/- ------------------------------------------------------------------
C5: the audit `limit` parameter is NOT capped at 100.
------------------------------------------------------------------ -/

/-- Admin requester for the C5 evaluation. -/
def c5Admin : UserRow := ⟨1, "a@x", "Ana Admin", "h", "admin", true⟩

/-- 101 stored audit entries. -/
def c5Logs : List AuditLogRow :=
  (List.range 101).map (fun i => ⟨i, 1, "login", none, none, .null, i⟩)

/-- A store holding the 101 entries. -/
def c5State : DBState := ⟨[c5Admin], [], c5Logs, 2, 1, 101, 101⟩

/-- C5 fails on the code: `limit: int = Query(default=50, lte=100)` spells
the FastAPI bound keyword `le` as `lte`, which FastAPI ignores (it is not a
validation keyword), so a requested limit of 101 is honored as given — with
101 stored entries the response carries 101 > 100 entries; nothing clamps
and nothing rejects. -/
theorem audit_recent_limit_not_capped :
    (get_recent_audit_logs c5State (some 101) c5Admin).length = 101
    ∧ 100 < 101
    ∧ parse_limit (some 101) = 101 := by
  refine ⟨?_, by omega, rfl⟩
  unfold get_recent_audit_logs get_recent_logs parse_limit sortByTimestampDesc
  simp [c5State, c5Admin, c5Logs]

/- ------------------------------------------------------------------
C3: user management is a hardcoded role gate; overrides are inert there.
------------------------------------------------------------------ -/

/-- C3: each of the six user-management operations is rejected with a 403
exactly when the requester's role is not `"admin"` (and is otherwise past
the authorization gate — no other 403 exists in these endpoints), for EVERY
store state; in particular an override row for `user_management`, granting
or revoking, never changes the authorization outcome. -/
theorem user_management_admin_only (s : DBState) (cu : UserRow) (skip limit : Nat)
    (search : Option String) (user_in : UserCreate) (upd : UserUpdate)
    (uidA uidB uidC uidD : Nat) (P : PageName) (v : Bool) :
    isForbidden (read_users s skip limit search cu) = !(cu.role == "admin")
    ∧ isForbidden (create_user s user_in cu) = !(cu.role == "admin")
    ∧ isForbidden (read_user_by_id s uidA cu) = !(cu.role == "admin")
    ∧ isForbidden (update_user s uidB upd cu) = !(cu.role == "admin")
    ∧ isForbidden (delete_user s uidC cu) = !(cu.role == "admin")
    ∧ isForbidden (update_user_page_access s uidD P v cu) = !(cu.role == "admin")
    ∧ ∀ row : UserPageAccessRow, row.page_name = PageName.user_management →
        isForbidden (update_user_page_access
            { s with page_access := row :: s.page_access } uidD P v cu)
          = isForbidden (update_user_page_access s uidD P v cu) := by
  have hgateT : cu.role = "admin" → get_current_admin_user cu = .ok cu := by
    intro hr
    simp [get_current_admin_user, hr]
  have hgateF : ¬(cu.role = "admin") →
      get_current_admin_user cu = .error adminGateErr := by
    intro hr
    simp [get_current_admin_user, hr]
  have hpa : ∀ st : DBState, isForbidden (update_user_page_access st uidD P v cu)
      = !(cu.role == "admin") := by
    intro st
    by_cases hr : cu.role = "admin"
    · cases h : crud_user_get st.users uidD with
      | none => simp [update_user_page_access, hgateT hr, h, isForbidden, hr]
      | some user => simp [update_user_page_access, hgateT hr, h, isForbidden, hr]
    · simp [update_user_page_access, hgateF hr, isForbidden, adminGateErr, hr]
  refine ⟨?_, ?_, ?_, ?_, ?_, hpa s, ?_⟩
  · by_cases hr : cu.role = "admin"
    · simp [read_users, hgateT hr, isForbidden, hr]
    · simp [read_users, hgateF hr, isForbidden, adminGateErr, hr]
  · by_cases hr : cu.role = "admin"
    · cases h : get_by_email s.users user_in.email with
      | none => simp [create_user, hgateT hr, h, isForbidden, hr]
      | some u2 => simp [create_user, hgateT hr, h, isForbidden, hr]
    · simp [create_user, hgateF hr, isForbidden, adminGateErr, hr]
  · by_cases hr : cu.role = "admin"
    · cases h : crud_user_get s.users uidA with
      | none => simp [read_user_by_id, hgateT hr, h, isForbidden, hr]
      | some user => simp [read_user_by_id, hgateT hr, h, isForbidden, hr]
    · simp [read_user_by_id, hgateF hr, isForbidden, adminGateErr, hr]
  · by_cases hr : cu.role = "admin"
    · cases h : crud_user_get s.users uidB with
      | none => simp [update_user, hgateT hr, h, isForbidden, hr]
      | some user => simp [update_user, hgateT hr, h, isForbidden, hr]
    · simp [update_user, hgateF hr, isForbidden, adminGateErr, hr]
  · by_cases hr : cu.role = "admin"
    · cases h : crud_user_get s.users uidC with
      | none => simp [delete_user, hgateT hr, h, isForbidden, hr]
      | some user =>
          simp only [delete_user, hgateT hr, h]
          by_cases hid : (user.id == cu.id) = true
          · simp [hid, isForbidden, hr]
          · simp only [Bool.not_eq_true] at hid
            simp [hid, isForbidden, hr]
    · simp [delete_user, hgateF hr, isForbidden, adminGateErr, hr]
  · intro row hrow
    rw [hpa, hpa]

/-- A two-user store for the C3 witness. -/
def c3State : DBState :=
  ⟨[⟨1, "a@x", "Ana Admin", "h", "admin", true⟩,
    ⟨2, "v@x", "Vi Viewer", "h", "viewer", true⟩], [], [], 3, 1, 1, 0⟩

/-- The non-admin requester of the C3 witness. -/
def c3Viewer : UserRow := ⟨2, "v@x", "Vi Viewer", "h", "viewer", true⟩

/-- Witness for C3 at a concrete input: a granting `user_management`
override row for the viewer changes nothing — the permission-change call is
denied either way — and `delete_user` is denied for the viewer. -/
theorem user_management_admin_only_witness :
    isForbidden (update_user_page_access
        { c3State with
            page_access := ⟨9, 2, .user_management, true⟩ :: c3State.page_access }
        2 .user_management true c3Viewer)
      = isForbidden (update_user_page_access c3State 2 .user_management true c3Viewer)
    ∧ isForbidden (delete_user c3State 1 c3Viewer) = !(c3Viewer.role == "admin") := by
  have h := user_management_admin_only c3State c3Viewer 0 100 none
    ⟨"n@x", "New", "pw", "viewer", true⟩ {} 1 1 1 2 PageName.user_management true
  exact ⟨h.2.2.2.2.2.2 ⟨9, 2, .user_management, true⟩ rfl, h.2.2.2.2.1⟩

/- ------------------------------------------------------------------
C4: role-scoped visibility of `get_recent_logs`.
------------------------------------------------------------------ -/

theorem join_one (users : List UserRow) (l : AuditLogRow) :
    (users.map (fun u => u.id)).Nodup →
    (((users.filter (fun u => u.id == l.actor_id)).map (fun u => (l, u))).filter
        (fun p => p.2.role != "admin")).map (fun p => p.1)
      = if users.any (fun u => u.id == l.actor_id && u.role != "admin") then [l]
        else [] := by
  induction users with
  | nil => intro _; rfl
  | cons u us ih =>
      intro hnodup
      have hnd : (us.map (fun x => x.id)).Nodup := by
        simp only [List.map_cons, List.nodup_cons] at hnodup
        exact hnodup.2
      have hnotin : u.id ∉ us.map (fun x => x.id) := by
        simp only [List.map_cons, List.nodup_cons] at hnodup
        exact hnodup.1
      by_cases hid : u.id = l.actor_id
      · have hrest : us.filter (fun x => x.id == l.actor_id) = [] := by
          rw [List.filter_eq_nil_iff]
          intro x hx hxeq
          simp only [beq_iff_eq] at hxeq
          have hxm : x.id ∈ us.map (fun y => y.id) := List.mem_map_of_mem _ hx
          rw [hxeq, ← hid] at hxm
          exact hnotin hxm
        have hrestany : us.any (fun x => x.id == l.actor_id && x.role != "admin")
            = false := by
          rw [List.any_eq_false]
          intro x hx hcon
          rw [Bool.and_eq_true] at hcon
          have hxeq := hcon.1
          simp only [beq_iff_eq] at hxeq
          have hxm : x.id ∈ us.map (fun y => y.id) := List.mem_map_of_mem _ hx
          rw [hxeq, ← hid] at hxm
          exact hnotin hxm
        rw [List.filter_cons_of_pos (by simp [hid]), hrest, List.any_cons, hrestany,
          Bool.or_false]
        by_cases hrole : u.role = "admin"
        · simp [hid, hrole]
        · simp [hid, hrole]
      · rw [List.filter_cons_of_neg (by simp [hid]), List.any_cons,
          show (u.id == l.actor_id && u.role != "admin") = false by simp [hid],
          Bool.false_or]
        exact ih hnd

theorem manager_filter_eq (users : List UserRow) (logs : List AuditLogRow)
    (hnodup : (users.map (fun u => u.id)).Nodup) :
    ((joinActor users logs).filter (fun p => p.2.role != "admin")).map (fun p => p.1)
      = logs.filter (fun l =>
          users.any (fun u => u.id == l.actor_id && u.role != "admin")) := by
  induction logs with
  | nil => rfl
  | cons l t ih =>
      have hcons : joinActor users (l :: t)
          = ((users.filter (fun u => u.id == l.actor_id)).map (fun u => (l, u)))
            ++ joinActor users t := rfl
      rw [hcons, List.filter_append, List.map_append, join_one users l hnodup, ih]
      by_cases hany :
          (users.any (fun u => u.id == l.actor_id && u.role != "admin")) = true
      · simp [hany]
      · simp only [Bool.not_eq_true] at hany
        simp [hany]

/-- C4: the role-scoped visibility filter of `get_recent_logs`, applied
before the limit: an admin sees everything; a manager sees exactly the
entries whose actor exists and has a role other than admin (the inner join
drops dangling actors); an agent or viewer sees exactly the entries whose
`actor_id` is their own id.  The hypothesis is primary-key uniqueness of
`users.id`. -/
theorem get_recent_logs_visibility (s : DBState) (limit : Nat) (requester : UserRow)
    (hnodup : (s.users.map (fun u => u.id)).Nodup) :
    (requester.role = "admin" →
      get_recent_logs s limit requester.role requester.id
        = (sortByTimestampDesc s.audit_logs).take limit)
    ∧ (requester.role = "manager" →
      get_recent_logs s limit requester.role requester.id
        = (sortByTimestampDesc (s.audit_logs.filter (fun l =>
            s.users.any (fun u => u.id == l.actor_id && u.role != "admin")))).take limit)
    ∧ ((requester.role = "agent" ∨ requester.role = "viewer") →
      get_recent_logs s limit requester.role requester.id
        = (sortByTimestampDesc (s.audit_logs.filter
            (fun l => l.actor_id == requester.id))).take limit) := by
  refine ⟨?_, ?_, ?_⟩
  · intro hr
    rw [hr]
    rfl
  · intro hr
    rw [hr]
    show (sortByTimestampDesc (((joinActor s.users s.audit_logs).filter
        (fun p => p.2.role != "admin")).map (fun p => p.1))).take limit = _
    rw [manager_filter_eq s.users s.audit_logs hnodup]
  · intro hr
    rcases hr with hr | hr <;> rw [hr] <;> rfl

/-- Users for the C4 witness: one of each relevant role. -/
def c4Admin : UserRow := ⟨1, "a@x", "Ana Admin", "h", "admin", true⟩

/-- The manager requester of the C4 witness. -/
def c4Manager : UserRow := ⟨2, "m@x", "Mo Manager", "h", "manager", true⟩

/-- One admin-authored and one manager-authored entry. -/
def c4State : DBState :=
  ⟨[c4Admin, c4Manager], [],
    [⟨1, 1, "create_user", none, none, .null, 1⟩,
     ⟨2, 2, "login", none, none, .null, 2⟩],
    3, 1, 3, 3⟩

/-- Witness for C4 at a concrete input, for the manager requester. -/
theorem get_recent_logs_visibility_witness :
    (c4Manager.role = "admin" →
      get_recent_logs c4State 50 c4Manager.role c4Manager.id
        = (sortByTimestampDesc c4State.audit_logs).take 50)
    ∧ (c4Manager.role = "manager" →
      get_recent_logs c4State 50 c4Manager.role c4Manager.id
        = (sortByTimestampDesc (c4State.audit_logs.filter (fun l =>
            c4State.users.any (fun u =>
              u.id == l.actor_id && u.role != "admin")))).take 50)
    ∧ ((c4Manager.role = "agent" ∨ c4Manager.role = "viewer") →
      get_recent_logs c4State 50 c4Manager.role c4Manager.id
        = (sortByTimestampDesc (c4State.audit_logs.filter
            (fun l => l.actor_id == c4Manager.id))).take 50) :=
  get_recent_logs_visibility c4State 50 c4Manager (by decide)

/- ------------------------------------------------------------------
C10: listForUser returns actor-OR-target entries, newest first.
------------------------------------------------------------------ -/

/-- C10: after the target substitution, `get_user_audit_logs` returns
exactly entries where the resolved id appears as actor OR as target —
soundness (every returned entry involves the resolved id), completeness for
`skip = 0` and a large enough limit (every stored entry involving the id is
returned, including entries authored by other users — admins included — that
target the id), and descending timestamp order. -/
theorem get_user_logs_actor_or_target (s : DBState) (target skip : Nat)
    (limitQ : Option Nat) (cu : UserRow) (uid : Nat)
    (huid : uid = if cu.role != "admin" && cu.id != target then cu.id else target) :
    (∀ e ∈ get_user_audit_logs s target skip limitQ cu,
        e.actor_id = uid ∨ e.target_user_id = some uid)
    ∧ (skip = 0 → s.audit_logs.length ≤ parse_limit limitQ →
        ∀ l ∈ s.audit_logs, (l.actor_id = uid ∨ l.target_user_id = some uid) →
          { enrichLog s.users l with meta_data := none }
            ∈ get_user_audit_logs s target skip limitQ cu)
    ∧ List.Pairwise (fun a b : EnrichedLog => b.timestamp ≤ a.timestamp)
        (get_user_audit_logs s target skip limitQ cu) := by
  have hbody : get_user_audit_logs s target skip limitQ cu
      = (get_user_logs s uid skip (parse_limit limitQ)).map
        (fun l => { enrichLog s.users l with meta_data := none }) := by
    rw [huid]
    rfl
  refine ⟨?_, ?_, ?_⟩
  · intro e he
    rw [hbody] at he
    rcases List.mem_map.mp he with ⟨l, hl, rfl⟩
    unfold get_user_logs at hl
    have hl2 := List.drop_subset _ _ (List.take_subset _ _ hl)
    have hl3 := (List.mem_filter.mp (List.mem_mergeSort.mp hl2)).2
    simp only [Bool.or_eq_true, beq_iff_eq] at hl3
    simpa [enrichLog] using hl3
  · intro hskip hlen l hl hcond
    rw [hbody]
    apply List.mem_map_of_mem
    unfold get_user_logs
    rw [hskip, List.drop_zero]
    have hfl : l ∈ s.audit_logs.filter
        (fun x => x.actor_id == uid || x.target_user_id == some uid) := by
      apply List.mem_filter.mpr
      refine ⟨hl, ?_⟩
      rcases hcond with h | h <;> simp [h]
    have hlen2 : (sortByTimestampDesc (s.audit_logs.filter
        (fun x => x.actor_id == uid || x.target_user_id == some uid))).length
        ≤ parse_limit limitQ := by
      unfold sortByTimestampDesc
      rw [List.length_mergeSort]
      exact le_trans (List.length_filter_le _ _) hlen
    rw [List.take_of_length_le hlen2]
    unfold sortByTimestampDesc
    exact List.mem_mergeSort.mpr hfl
  · rw [hbody, List.pairwise_map]
    unfold get_user_logs
    have hsorted : (sortByTimestampDesc (s.audit_logs.filter
        (fun x => x.actor_id == uid || x.target_user_id == some uid))).Pairwise
        (fun a b => decide (b.timestamp ≤ a.timestamp) = true) := by
      unfold sortByTimestampDesc
      exact List.sorted_mergeSort
        (by
          intro a b c h1 h2
          simp only [decide_eq_true_eq] at h1 h2 ⊢
          omega)
        (by
          intro a b
          simp only [Bool.or_eq_true, decide_eq_true_eq]
          omega) _
    have hsub := (List.take_sublist (parse_limit limitQ) _).trans
      (List.drop_sublist skip (sortByTimestampDesc (s.audit_logs.filter
        (fun x => x.actor_id == uid || x.target_user_id == some uid))))
    apply List.Pairwise.imp ?_ (List.Pairwise.sublist hsub hsorted)
    intro a b hab
    exact of_decide_eq_true hab

/-- The viewer of the C10 witness. -/
def c10Viewer : UserRow := ⟨3, "v@x", "Vi Viewer", "h", "viewer", true⟩

/-- Three entries: an admin-authored one targeting the viewer, a
viewer-authored one, and an unrelated admin-authored one. -/
def c10State : DBState :=
  ⟨[⟨1, "a@x", "Ana Admin", "h", "admin", true⟩, c10Viewer], [],
    [⟨1, 1, "update_page_access", none, some 3, .null, 1⟩,
     ⟨2, 3, "login", none, none, .null, 2⟩,
     ⟨3, 1, "create_user", none, some 9, .null, 3⟩],
    4, 1, 4, 4⟩

/-- Witness for C10 at a concrete input: the viewer requesting user 7's
history is resolved to their own id 3. -/
theorem get_user_logs_actor_or_target_witness :
    (∀ e ∈ get_user_audit_logs c10State 7 0 none c10Viewer,
        e.actor_id = 3 ∨ e.target_user_id = some 3)
    ∧ (0 = 0 → c10State.audit_logs.length ≤ parse_limit none →
        ∀ l ∈ c10State.audit_logs, (l.actor_id = 3 ∨ l.target_user_id = some 3) →
          { enrichLog c10State.users l with meta_data := none }
            ∈ get_user_audit_logs c10State 7 0 none c10Viewer)
    ∧ List.Pairwise (fun a b : EnrichedLog => b.timestamp ≤ a.timestamp)
        (get_user_audit_logs c10State 7 0 none c10Viewer) :=
  get_user_logs_actor_or_target c10State 7 0 none c10Viewer 3 (by decide)
